import Mathlib

/-!
# PropaChain front end: the upload coordinator and the listing stub

A shallow embedding of

* `src/Propachain_frontend/src/utils/helper.js` (`uploadImageVideoFile`), and
* `src/Propachain_frontend/src/hooks/usePropertyUpload.jsx` (`usePropertyUpload`).

Modelling conventions.

* Arguments are JavaScript values (`JsVal`); the code branches on their
  truthiness, so the falsy values are part of the domain.
* Every call of an asynchronous function yields a `Call`: the ordered list of
  observable effects, the way the returned promise settles, and the logical
  time at which it settles.
* A call of the pinning client either raises synchronously or returns a
  promise, which is described by how and when it settles; a promise may fulfil
  with `null`/`undefined` instead of a response object.  Logical time is a
  natural number; the synchronous part of a call runs at time `0`.  Every
  promise of the model settles at some finite time.
* `Promise.all` follows ECMAScript: it fulfils once every element has
  fulfilled, and it rejects as soon as one element rejects.
-/

namespace PropaChain

/-! ## JavaScript values -/

/-- JavaScript values that can be passed to the two functions. `file` is a
`File`/`Blob` object with its name and byte size, `event` an object with a
callable `preventDefault` (a DOM or React event), `object` any other plain object
with string-valued properties. -/
inductive JsVal where
  | undefined
  | null
  | bool (b : Bool)
  | num (n : Int)
  | nan
  | str (s : String)
  | file (name : String) (size : Nat)
  | event (type : String)
  | object (props : List (String × String))
  deriving DecidableEq, Repr

/-- ECMAScript `ToBoolean`: the test behind `!x` and `if (x)`. Objects are
always truthy, whatever they contain. -/
def JsVal.truthy : JsVal → Bool
  | .undefined => false
  | .null => false
  | .bool b => b
  | .num n => n != 0
  | .nan => false
  | .str s => s != ""
  | .file _ _ => true
  | .event _ => true
  | .object _ => true

/-- Whether `e.preventDefault()` can be called on the value. -/
def JsVal.hasPreventDefault : JsVal → Bool
  | .event _ => true
  | _ => false

/-- A payload that is present and holds at least one byte (the reading of
"present and non-empty" for a file-like payload). -/
def JsVal.nonEmptyPayload : JsVal → Bool
  | .file _ size => size != 0
  | v => v.truthy

/-- A thrown value or rejection reason. -/
abbrev JsError := String

/-! ## Promises -/

/-- How a promise settles. -/
inductive Settlement (α : Type) where
  | fulfilled (value : α)
  | rejected (reason : JsError)
  deriving DecidableEq, Repr

/-- A promise, described by the logical time at which it settles and by its
settlement. -/
structure Promise (α : Type) where
  settledAt : Nat
  outcome : Settlement α
  deriving DecidableEq, Repr

/-- Whether the promise fulfils. -/
def Promise.isFulfilled {α : Type} (p : Promise α) : Bool :=
  match p.outcome with
  | .fulfilled _ => true
  | .rejected _ => false

/-- The promise `p.then(f)`: it settles when `p` does; when `p` fulfils, with
the value returned by the callback `f`, or rejected with what `f` throws; when
`p` rejects, with the same rejection. -/
def Promise.thenCall {α β : Type} (p : Promise α) (f : α → Except JsError β) : Promise β :=
  { settledAt := p.settledAt
    outcome := match p.outcome with
      | .fulfilled v =>
        match f v with
        | .ok b => .fulfilled b
        | .error thrown => .rejected thrown
      | .rejected r => .rejected r }

/-- The earliest rejection among the promises (time and reason); of two
rejections at the same time the one earlier in the array wins. -/
def earliestRejection {α : Type} : List (Promise α) → Option (Nat × JsError)
  | [] => none
  | p :: ps =>
    match p.outcome, earliestRejection ps with
    | .rejected r, some (t, r') => if p.settledAt ≤ t then some (p.settledAt, r) else some (t, r')
    | .rejected r, none => some (p.settledAt, r)
    | .fulfilled _, later => later

/-- The time by which every promise of the list has settled. -/
def lastSettlement {α : Type} : List (Promise α) → Nat
  | [] => 0
  | p :: ps => max p.settledAt (lastSettlement ps)

/-- The fulfilment values of a list of promises, in array order. -/
def fulfilledValues {α : Type} : List (Promise α) → List α
  | [] => []
  | p :: ps =>
    match p.outcome with
    | .fulfilled v => v :: fulfilledValues ps
    | .rejected _ => fulfilledValues ps

/-- ECMAScript `Promise.all`: rejects at the first rejection, with its reason;
otherwise fulfils, once all elements have, with the values in array order. -/
def Promise.all {α : Type} (ps : List (Promise α)) : Promise (List α) :=
  match earliestRejection ps with
  | some (t, r) => { settledAt := t, outcome := .rejected r }
  | none => { settledAt := lastSettlement ps, outcome := .fulfilled (fulfilledValues ps) }

/-! ## Collaborators and effects -/

/-- The response object of the pinning service to an upload; the code reads
its `cid` only. -/
structure UploadResponse where
  cid : String
  deriving DecidableEq, Repr

/-- The element produced by the `.then` callbacks: `{ type, cid }`. -/
structure AssetUploadResult where
  type : String
  cid : String
  deriving DecidableEq, Repr

/-- What one call `pinata.upload.file(payload)` does: it raises synchronously,
or it returns a promise; the promise fulfils with a response object (`some`) or
with `null`/`undefined` (`none`), or it rejects. -/
inductive ClientAnswer where
  | threw (error : JsError)
  | promise (p : Promise (Option UploadResponse))
  deriving DecidableEq, Repr

/-- Whether the call raised synchronously. -/
def ClientAnswer.isThrow : ClientAnswer → Bool
  | .threw _ => true
  | .promise _ => false

/-- The response object delivered by the call, if there is one. -/
def ClientAnswer.response? : ClientAnswer → Option UploadResponse
  | .threw _ => none
  | .promise p =>
    match p.outcome with
    | .fulfilled (some res) => some res
    | .fulfilled none => none
    | .rejected _ => none

/-- Whether the upload succeeds: the call returns a promise that fulfils with a
response object. It fails when the call raises, when the promise rejects, and
when the promise fulfils without a response object. -/
def ClientAnswer.succeeds (a : ClientAnswer) : Bool := a.response?.isSome

/-- Whether a promise of the client fulfils with a response object. -/
def Promise.delivers (p : Promise (Option UploadResponse)) : Bool :=
  match p.outcome with
  | .fulfilled (some _) => true
  | .fulfilled none => false
  | .rejected _ => false

/-- Observable effects of a call, in program order. An `uploadFile` effect
records the payload and what the client did with it. -/
inductive Effect where
  | preventDefault
  | uploadFile (payload : JsVal) (answer : ClientAnswer)
  | toastError (message : String) (id : JsVal)
  | consoleError (label : String)
  | consoleLog (label : String) (args : List JsVal)
  deriving DecidableEq, Repr

/-- The pinning client `pinata.upload.file`, an external collaborator taken
as a parameter: given the number of uploads already requested in this call
and the payload, what the call does. -/
abbrev PinningClient := Nat → JsVal → ClientAnswer

/-- How the promise returned by an async function settles. -/
inductive Completion (α : Type) where
  | returned (value : α)
  | threw (error : JsError)
  deriving DecidableEq, Repr

/-- The observable behaviour of one call of an async function. -/
structure Call (α : Type) where
  trace : List Effect
  completion : Completion α
  completedAt : Nat
  deriving DecidableEq, Repr

/-- The payloads handed to `pinata.upload.file`, in call order. -/
def uploadCalls : List Effect → List JsVal
  | [] => []
  | .uploadFile payload _ :: es => payload :: uploadCalls es
  | _ :: es => uploadCalls es

/-- What the client did at each call of `pinata.upload.file`, in call order. -/
def answers : List Effect → List ClientAnswer
  | [] => []
  | .uploadFile _ a :: es => a :: answers es
  | _ :: es => answers es

/-- The promises among a list of answers. -/
def promisesOf : List ClientAnswer → List (Promise (Option UploadResponse))
  | [] => []
  | .promise p :: as => p :: promisesOf as
  | .threw _ :: as => promisesOf as

/-- The promises returned by `pinata.upload.file`, in call order: the
submissions in flight. -/
def submissions (trace : List Effect) : List (Promise (Option UploadResponse)) :=
  promisesOf (answers trace)

/-- The notifications sent to the toast sink, as (message, id), in order. -/
def notifications : List Effect → List (String × JsVal)
  | [] => []
  | .toastError message id :: es => (message, id) :: notifications es
  | _ :: es => notifications es

/-- The number of `e.preventDefault()` invocations in a trace. -/
def preventDefaultCount : List Effect → Nat
  | [] => 0
  | .preventDefault :: es => preventDefaultCount es + 1
  | _ :: es => preventDefaultCount es

/-! ## The object returned on success -/

/-- The object `cids`: string keys in insertion order, each with its value. -/
abbrev Cids := List (String × String)

/-- The assignment `cids[key] = value`. -/
def Cids.setProp : Cids → String → String → Cids
  | [], key, value => [(key, value)]
  | (k, v) :: rest, key, value =>
    if k = key then (k, value) :: rest else (k, v) :: Cids.setProp rest key value

/-- The read `cids[key]`. -/
def Cids.getProp : Cids → String → Option String
  | [], _ => none
  | (k, v) :: rest, key => if k = key then some v else Cids.getProp rest key

/-- The own keys of the object, `Object.keys(cids)`. -/
def Cids.keys (o : Cids) : List String := o.map Prod.fst

/-! ## helper.js -/

/-- The callback `(res) => ({ type: ..., cid: res.cid })` given to `.then`:
reading `cid` of `null` or `undefined` throws a TypeError. -/
def readCid (type : String) : Option UploadResponse → Except JsError AssetUploadResult
  | none => .error "TypeError"
  | some res => .ok { type := type, cid := res.cid }

/-- One statement `uploadPromises.push(pinata.upload.file(payload).then(...))`
of the try block. The client sees how many uploads were requested before; the
call is recorded in the trace; when it raises, the statement is abandoned with
that exception. -/
def pushUpload (pinata : PinningClient) (type : String) (payload : JsVal)
    (trace : List Effect) (uploadPromises : List (Promise AssetUploadResult)) :
    List Effect × Except JsError (List (Promise AssetUploadResult)) :=
  let answer := pinata (uploadCalls trace).length payload
  let trace := trace ++ [.uploadFile payload answer]
  match answer with
  | .threw error => (trace, .error error)
  | .promise p => (trace, .ok (uploadPromises ++ [p.thenCall (readCid type)]))

/-- The catch block, lines 55 to 59, entered at time `now`. -/
def catchBlock (trace : List Effect) (toastId : JsVal) (now : Nat) : Call (Option Cids) :=
  { trace := trace ++ [.consoleError "Upload failed:",
                       .toastError "Failed to upload files to IPFS." toastId]
    completion := .returned none
    completedAt := now }

/-- The function `uploadImageVideoFile(e, image, video, document, toastId)` of
helper.js, lines 9 to 60. -/
def uploadImageVideoFile (pinata : PinningClient)
    (e image video document toastId : JsVal) : Call (Option Cids) :=
  -- e.preventDefault();   (outside the try block)
  if !e.hasPreventDefault then
    { trace := [], completion := .threw "TypeError", completedAt := 0 }
  else
    let trace : List Effect := [.preventDefault]
    -- try { if (!image) { toast.error(...); return null; }
    if !image.truthy then
      { trace := trace ++ [.toastError "Please upload an image." toastId]
        completion := .returned none
        completedAt := 0 }
    else
      -- const uploadPromises = [];
      let uploadPromises : List (Promise AssetUploadResult) := []
      -- uploadPromises.push(pinata.upload.file(image).then(...))
      match pushUpload pinata "image" image trace uploadPromises with
      | (trace, .error _) => catchBlock trace toastId 0
      | (trace, .ok uploadPromises) =>
        -- if (video) { uploadPromises.push(...) }
        match (if video.truthy then pushUpload pinata "video" video trace uploadPromises
               else (trace, .ok uploadPromises)) with
        | (trace, .error _) => catchBlock trace toastId 0
        | (trace, .ok uploadPromises) =>
          -- if (document) { uploadPromises.push(...) }
          match (if document.truthy then
                   pushUpload pinata "document" document trace uploadPromises
                 else (trace, .ok uploadPromises)) with
          | (trace, .error _) => catchBlock trace toastId 0
          | (trace, .ok uploadPromises) =>
            -- const results = await Promise.all(uploadPromises);
            let all := Promise.all uploadPromises
            match all.outcome with
            | .fulfilled results =>
              -- const cids = {}; results.forEach(res => { cids[res.type] = res.cid; });
              -- return cids;
              let cids : Cids :=
                results.foldl (fun cids res => cids.setProp res.type res.cid) []
              { trace := trace, completion := .returned (some cids),
                completedAt := all.settledAt }
            | .rejected _ => catchBlock trace toastId all.settledAt

/-! ## usePropertyUpload.jsx -/

/-- The function `uploadProperty` defined inside `usePropertyUpload`, lines 5 to
13: it logs, waits for a 2000 ms timer, and returns `true`; the fourth
parameter, `toastId`, is never read. -/
def usePropertyUpload.uploadProperty (listingType formData cids _toastId : JsVal) : Call Bool :=
  -- console.log("Uploading property data:", { listingType, formData, cids });
  let trace : List Effect := [.consoleLog "Uploading property data:" [listingType, formData, cids]]
  -- await new Promise(resolve => setTimeout(resolve, 2000));
  let timer : Promise Unit := { settledAt := 2000, outcome := .fulfilled () }
  -- return true;
  { trace := trace, completion := .returned true, completedAt := timer.settledAt }

/-- The object returned by the hook. -/
structure PropertyUploadHook where
  uploadProperty : JsVal → JsVal → JsVal → JsVal → Call Bool

/-- The hook `usePropertyUpload`, lines 4 to 16. -/
def usePropertyUpload (_ : Unit) : PropertyUploadHook :=
  { uploadProperty := usePropertyUpload.uploadProperty }

/-! ## The dispatch as a list, for the proofs -/

/-- The uploads a call with an event and a truthy image sets out to issue, each
with the role under which its result is stored, its payload, and what the
client does at that call. -/
def plannedUploads (pinata : PinningClient) (image video document : JsVal) :
    List (String × JsVal × ClientAnswer) :=
  [("image", image, pinata 0 image)]
    ++ (if video.truthy then [("video", video, pinata 1 video)] else [])
    ++ (if document.truthy then
          [("document", document, pinata (if video.truthy then 2 else 1) document)]
        else [])

/-- The trace entry of one upload. -/
def uploadEffect (u : String × JsVal × ClientAnswer) : Effect := .uploadFile u.2.1 u.2.2

/-- The promises pushed to `uploadPromises` for a list of uploads. -/
def awaitedOf : List (String × JsVal × ClientAnswer) → List (Promise AssetUploadResult)
  | [] => []
  | u :: us =>
    match u.2.2 with
    | .promise p => p.thenCall (readCid u.1) :: awaitedOf us
    | .threw _ => awaitedOf us

/-- The dispatch of a list of uploads in order, stopping at the first call that
raises: the trace entries, and the pushed promises or the exception. -/
def dispatchAll : List (String × JsVal × ClientAnswer) →
    List Effect × Except JsError (List (Promise AssetUploadResult))
  | [] => ([], .ok [])
  | u :: us =>
    match u.2.2 with
    | .threw error => ([uploadEffect u], .error error)
    | .promise p =>
      match dispatchAll us with
      | (trace, .ok ps) => (uploadEffect u :: trace, .ok (p.thenCall (readCid u.1) :: ps))
      | (trace, .error error) => (uploadEffect u :: trace, .error error)

/-! ## Sample collaborators used in the concrete evaluations -/

/-- A client whose uploads all fulfil at time `1`: the first with `cidA`, the
second with `cidV`, the third and later with `cidD`. -/
def happyClient : PinningClient := fun n _ =>
  .promise { settledAt := 1
             outcome := .fulfilled
              (some { cid := if n = 0 then "cidA" else if n = 1 then "cidV" else "cidD" }) }

/-- A client whose first upload fulfils at time `5` and whose later uploads
reject at time `1`. -/
def slowImageClient : PinningClient := fun n _ =>
  if n = 0 then .promise { settledAt := 5, outcome := .fulfilled (some { cid := "cidA" }) }
  else .promise { settledAt := 1, outcome := .rejected "network error" }

/-- A client whose first upload fulfils and whose later uploads reject, all at
time `1`. -/
def videoFailsClient : PinningClient := fun n _ =>
  if n = 0 then .promise { settledAt := 1, outcome := .fulfilled (some { cid := "cidA" }) }
  else .promise { settledAt := 1, outcome := .rejected "network error" }

/-- A client every call of which raises synchronously. -/
def throwingClient : PinningClient := fun _ _ => .threw "Error: no token"

/-- A client whose first upload fulfils at time `1` and whose later calls raise
synchronously. -/
def videoThrowsClient : PinningClient := fun n _ =>
  if n = 0 then .promise { settledAt := 1, outcome := .fulfilled (some { cid := "cidA" }) }
  else .threw "Error: unsupported type"

/-- A client whose uploads fulfil at time `1` with `undefined`. -/
def emptyResponseClient : PinningClient := fun _ _ =>
  .promise { settledAt := 1, outcome := .fulfilled none }

example : uploadImageVideoFile happyClient (.event "submit") (.file "a.png" 10) (.file "v.mp4" 20)
    (.file "d.pdf" 30) (.str "t1") =
    { trace := [.preventDefault,
                .uploadFile (.file "a.png" 10) (happyClient 0 (.file "a.png" 10)),
                .uploadFile (.file "v.mp4" 20) (happyClient 1 (.file "v.mp4" 20)),
                .uploadFile (.file "d.pdf" 30) (happyClient 2 (.file "d.pdf" 30))]
      completion := .returned (some [("image", "cidA"), ("video", "cidV"), ("document", "cidD")])
      completedAt := 1 } := by decide

example : uploadImageVideoFile slowImageClient (.event "submit") (.file "a.png" 10) (.file "v.mp4" 20)
    .undefined (.str "t1") =
    { trace := [.preventDefault,
                .uploadFile (.file "a.png" 10) (slowImageClient 0 (.file "a.png" 10)),
                .uploadFile (.file "v.mp4" 20) (slowImageClient 1 (.file "v.mp4" 20)),
                .consoleError "Upload failed:",
                .toastError "Failed to upload files to IPFS." (.str "t1")]
      completion := .returned none
      completedAt := 1 } := by decide

example : uploadImageVideoFile throwingClient (.event "submit") (.file "a.png" 10)
    (.file "v.mp4" 20) (.file "d.pdf" 30) (.str "t1") =
    { trace := [.preventDefault,
                .uploadFile (.file "a.png" 10) (.threw "Error: no token"),
                .consoleError "Upload failed:",
                .toastError "Failed to upload files to IPFS." (.str "t1")]
      completion := .returned none
      completedAt := 0 } := by decide

example : uploadImageVideoFile emptyResponseClient (.event "submit") (.file "a.png" 10)
    .undefined .undefined (.str "t1") =
    { trace := [.preventDefault,
                .uploadFile (.file "a.png" 10) (emptyResponseClient 0 (.file "a.png" 10)),
                .consoleError "Upload failed:",
                .toastError "Failed to upload files to IPFS." (.str "t1")]
      completion := .returned none
      completedAt := 1 } := by decide

/-! ## Auxiliary facts -/

theorem Promise.isFulfilled_iff {α : Type} (p : Promise α) :
    p.isFulfilled = true ↔ ∃ v, p.outcome = .fulfilled v := by
  unfold Promise.isFulfilled
  cases p.outcome <;> simp

theorem Promise.not_isFulfilled_iff {α : Type} (p : Promise α) :
    p.isFulfilled = false ↔ ∃ r, p.outcome = .rejected r := by
  unfold Promise.isFulfilled
  cases p.outcome <;> simp

theorem earliestRejection_eq_none_iff {α : Type} (ps : List (Promise α)) :
    earliestRejection ps = none ↔ ∀ p ∈ ps, p.isFulfilled = true := by
  induction ps with
  | nil => simp [earliestRejection]
  | cons p ps ih =>
    rcases h : p.outcome with v | r
    · simp [earliestRejection, h, ih, Promise.isFulfilled]
    · cases h2 : earliestRejection ps with
      | none => simp [earliestRejection, h, h2, Promise.isFulfilled]
      | some tr =>
        obtain ⟨t, r2⟩ := tr
        simp only [earliestRejection, h, h2]
        split_ifs <;> simp [Promise.isFulfilled, h]

theorem earliestRejection_some {α : Type} (ps : List (Promise α)) (t : Nat) (r : JsError)
    (h : earliestRejection ps = some (t, r)) :
    (∃ p ∈ ps, p.outcome = .rejected r ∧ p.settledAt = t) ∧
    ∀ q ∈ ps, q.isFulfilled = false → t ≤ q.settledAt := by
  induction ps generalizing t r with
  | nil => simp [earliestRejection] at h
  | cons p ps ih =>
    rcases hp : p.outcome with v | rp
    · simp only [earliestRejection, hp] at h
      obtain ⟨⟨q, hq, hq2⟩, hmin⟩ := ih t r h
      refine ⟨⟨q, List.mem_cons_of_mem _ hq, hq2⟩, ?_⟩
      intro q hq hf
      rcases List.mem_cons.1 hq with rfl | hq
      · simp [Promise.isFulfilled, hp] at hf
      · exact hmin q hq hf
    · cases h2 : earliestRejection ps with
      | none =>
        simp only [earliestRejection, hp, h2, Option.some.injEq, Prod.mk.injEq] at h
        obtain ⟨rfl, rfl⟩ := h
        refine ⟨⟨p, List.mem_cons_self _ _, hp, rfl⟩, ?_⟩
        intro q hq hf
        rcases List.mem_cons.1 hq with rfl | hq
        · exact le_rfl
        · have := (earliestRejection_eq_none_iff ps).1 h2 q hq
          simp [this] at hf
      | some tr =>
        obtain ⟨t2, r2⟩ := tr
        obtain ⟨⟨q, hq, hq2⟩, hmin⟩ := ih t2 r2 h2
        simp only [earliestRejection, hp, h2] at h
        split_ifs at h with hle
        · simp only [Option.some.injEq, Prod.mk.injEq] at h
          obtain ⟨rfl, rfl⟩ := h
          refine ⟨⟨p, List.mem_cons_self _ _, hp, rfl⟩, ?_⟩
          intro q hq hf
          rcases List.mem_cons.1 hq with rfl | hq
          · exact le_rfl
          · exact le_trans hle (hmin q hq hf)
        · simp only [Option.some.injEq, Prod.mk.injEq] at h
          obtain ⟨rfl, rfl⟩ := h
          refine ⟨⟨q, List.mem_cons_of_mem _ hq, hq2⟩, ?_⟩
          intro q hq hf
          rcases List.mem_cons.1 hq with rfl | hq
          · omega
          · exact hmin q hq hf

theorem le_lastSettlement {α : Type} (ps : List (Promise α)) (p : Promise α) (hp : p ∈ ps) :
    p.settledAt ≤ lastSettlement ps := by
  induction ps with
  | nil => simp at hp
  | cons q ps ih =>
    rcases List.mem_cons.1 hp with rfl | hp
    · simp [lastSettlement]
    · have := ih hp
      simp only [lastSettlement]
      omega

theorem JsVal.hasPreventDefault_iff (e : JsVal) :
    e.hasPreventDefault = true ↔ ∃ type, e = .event type := by
  cases e <;> simp [JsVal.hasPreventDefault]

theorem getProp_setProp_isSome (acc : Cids) (key k v : String)
    (h : (Cids.getProp acc key).isSome = true) :
    (Cids.getProp (Cids.setProp acc k v) key).isSome = true := by
  induction acc with
  | nil => simp [Cids.getProp] at h
  | cons kv rest ih =>
    obtain ⟨k0, v0⟩ := kv
    rw [Cids.setProp]
    rw [Cids.getProp] at h
    by_cases hk : k0 = k
    · rw [if_pos hk, Cids.getProp]
      by_cases hkey : k0 = key
      · rw [if_pos hkey]
        rfl
      · rw [if_neg hkey] at h ⊢
        exact h
    · rw [if_neg hk, Cids.getProp]
      by_cases hkey : k0 = key
      · rw [if_pos hkey]
        rfl
      · rw [if_neg hkey] at h ⊢
        exact ih h

theorem foldl_setProp_getProp_isSome (results : List AssetUploadResult) (acc : Cids)
    (key : String) (h : (Cids.getProp acc key).isSome = true) :
    (Cids.getProp (results.foldl (fun cids res => Cids.setProp cids res.type res.cid) acc)
      key).isSome = true := by
  induction results generalizing acc with
  | nil => simpa using h
  | cons r rs ih => exact ih _ (getProp_setProp_isSome acc key r.type r.cid h)

theorem ClientAnswer.succeeds_iff (a : ClientAnswer) :
    a.succeeds = true ↔ ∃ p res, a = .promise p ∧ p.outcome = .fulfilled (some res) := by
  cases a with
  | threw error => simp [ClientAnswer.succeeds, ClientAnswer.response?]
  | promise p =>
    rcases h : p.outcome with v | r
    · cases v <;> simp [ClientAnswer.succeeds, ClientAnswer.response?, h]
    · simp [ClientAnswer.succeeds, ClientAnswer.response?, h]

theorem ClientAnswer.succeeds_promise (p : Promise (Option UploadResponse)) :
    (ClientAnswer.promise p).succeeds = p.delivers := by
  rcases h : p.outcome with v | r
  · cases v <;> simp [ClientAnswer.succeeds, ClientAnswer.response?, Promise.delivers, h]
  · simp [ClientAnswer.succeeds, ClientAnswer.response?, Promise.delivers, h]

theorem ClientAnswer.not_isThrow_of_succeeds (a : ClientAnswer) (h : a.succeeds = true) :
    a.isThrow = false := by
  cases a with
  | threw error => simp [ClientAnswer.succeeds, ClientAnswer.response?] at h
  | promise p => rfl

theorem Promise.thenCall_readCid_isFulfilled (p : Promise (Option UploadResponse))
    (type : String) : (p.thenCall (readCid type)).isFulfilled = p.delivers := by
  rcases h : p.outcome with v | r
  · cases v <;> simp [Promise.thenCall, Promise.isFulfilled, Promise.delivers, readCid, h]
  · simp [Promise.thenCall, Promise.isFulfilled, Promise.delivers, h]

theorem dispatchAll_of_no_throw (us : List (String × JsVal × ClientAnswer))
    (h : ∀ u ∈ us, u.2.2.isThrow = false) :
    dispatchAll us = (us.map uploadEffect, .ok (awaitedOf us)) := by
  induction us with
  | nil => rfl
  | cons u us ih =>
    have hu := h u (List.mem_cons_self _ _)
    have ih2 := ih (fun v hv => h v (List.mem_cons_of_mem _ hv))
    rcases hans : u.2.2 with error | p
    · simp [hans, ClientAnswer.isThrow] at hu
    · simp [dispatchAll, awaitedOf, hans, ih2]

theorem dispatchAll_of_throw (us : List (String × JsVal × ClientAnswer))
    (h : ∃ u ∈ us, u.2.2.isThrow = true) :
    ∃ pre u post error, us = pre ++ u :: post ∧ (∀ v ∈ pre, v.2.2.isThrow = false) ∧
      u.2.2 = .threw error ∧ dispatchAll us = ((pre ++ [u]).map uploadEffect, .error error) := by
  induction us with
  | nil => simp at h
  | cons u us ih =>
    rcases hans : u.2.2 with error | p
    · exact ⟨[], u, us, error, rfl, by simp, hans, by simp [dispatchAll, hans]⟩
    · have h2 : ∃ v ∈ us, v.2.2.isThrow = true := by
        obtain ⟨v, hv, hvt⟩ := h
        rcases List.mem_cons.1 hv with rfl | hv
        · simp [hans, ClientAnswer.isThrow] at hvt
        · exact ⟨v, hv, hvt⟩
      obtain ⟨pre, w, post, error, hus, hpre, hw, hd⟩ := ih h2
      refine ⟨u :: pre, w, post, error, by simp [hus], ?_, hw, ?_⟩
      · intro v hv
        rcases List.mem_cons.1 hv with rfl | hv
        · simp [hans, ClientAnswer.isThrow]
        · exact hpre v hv
      · simp [dispatchAll, hans, hd]

theorem mem_awaitedOf (us : List (String × JsVal × ClientAnswer))
    (q : Promise AssetUploadResult) (hq : q ∈ awaitedOf us) :
    ∃ u ∈ us, ∃ p, u.2.2 = .promise p ∧ q.settledAt = p.settledAt ∧
      q.isFulfilled = p.delivers := by
  induction us with
  | nil => simp [awaitedOf] at hq
  | cons u us ih =>
    rcases hans : u.2.2 with error | p
    · simp only [awaitedOf, hans] at hq
      obtain ⟨v, hv, hrest⟩ := ih hq
      exact ⟨v, List.mem_cons_of_mem _ hv, hrest⟩
    · simp only [awaitedOf, hans] at hq
      rcases List.mem_cons.1 hq with rfl | hq
      · exact ⟨u, List.mem_cons_self _ _, p, hans, rfl,
          Promise.thenCall_readCid_isFulfilled p u.1⟩
      · obtain ⟨v, hv, hrest⟩ := ih hq
        exact ⟨v, List.mem_cons_of_mem _ hv, hrest⟩

theorem awaitedOf_of_mem (us : List (String × JsVal × ClientAnswer))
    (u : String × JsVal × ClientAnswer) (hu : u ∈ us)
    (p : Promise (Option UploadResponse)) (hp : u.2.2 = .promise p) :
    ∃ q ∈ awaitedOf us, q.settledAt = p.settledAt ∧ q.isFulfilled = p.delivers := by
  induction us with
  | nil => simp at hu
  | cons v us ih =>
    rcases List.mem_cons.1 hu with rfl | hu
    · refine ⟨p.thenCall (readCid u.1), ?_, rfl, Promise.thenCall_readCid_isFulfilled p u.1⟩
      simp [awaitedOf, hp]
    · obtain ⟨q, hq, hrest⟩ := ih hu
      refine ⟨q, ?_, hrest⟩
      rcases hans : v.2.2 with error | p2
      · simpa [awaitedOf, hans] using hq
      · simp [awaitedOf, hans, hq]

theorem uploadCalls_map_uploadEffect (us : List (String × JsVal × ClientAnswer))
    (tail : List Effect) :
    uploadCalls (us.map uploadEffect ++ tail) = us.map (fun u => u.2.1) ++ uploadCalls tail := by
  induction us with
  | nil => simp
  | cons u us ih => simp [uploadCalls, uploadEffect, ih]

theorem answers_map_uploadEffect (us : List (String × JsVal × ClientAnswer))
    (tail : List Effect) :
    answers (us.map uploadEffect ++ tail) = us.map (fun u => u.2.2) ++ answers tail := by
  induction us with
  | nil => simp
  | cons u us ih => simp [answers, uploadEffect, ih]

theorem notifications_map_uploadEffect (us : List (String × JsVal × ClientAnswer))
    (tail : List Effect) :
    notifications (us.map uploadEffect ++ tail) = notifications tail := by
  induction us with
  | nil => simp
  | cons u us ih => simp [notifications, uploadEffect, ih]

theorem preventDefaultCount_map_uploadEffect (us : List (String × JsVal × ClientAnswer))
    (tail : List Effect) :
    preventDefaultCount (us.map uploadEffect ++ tail) = preventDefaultCount tail := by
  induction us with
  | nil => simp
  | cons u us ih => simp [preventDefaultCount, uploadEffect, ih]

theorem mem_promisesOf (as : List ClientAnswer) (p : Promise (Option UploadResponse)) :
    p ∈ promisesOf as ↔ ClientAnswer.promise p ∈ as := by
  induction as with
  | nil => simp [promisesOf]
  | cons a as ih =>
    cases a with
    | threw error => simp [promisesOf, ih]
    | promise q => simp [promisesOf, ih]

theorem preventDefault_first (us : List (String × JsVal × ClientAnswer)) (tail : List Effect)
    (htail : Effect.preventDefault ∉ tail) (hcount : preventDefaultCount tail = 0) :
    preventDefaultCount (Effect.preventDefault :: (us.map uploadEffect ++ tail)) = 1 ∧
    Effect.preventDefault ∉ us.map uploadEffect ++ tail := by
  refine ⟨?_, ?_⟩
  · rw [preventDefaultCount, preventDefaultCount_map_uploadEffect, hcount]
  · intro h
    rcases List.mem_append.1 h with h | h
    · obtain ⟨u, -, hu⟩ := List.mem_map.1 h
      simp [uploadEffect] at hu
    · exact htail h

/-- The shape of a call with an event and a truthy image: the uploads are
dispatched in order; an exception raised by a call, or the outcome of
`Promise.all`, decides between the endings. -/
theorem uploadImageVideoFile_of_truthy_image (pinata : PinningClient) (type : String)
    (image video document toastId : JsVal) (hi : image.truthy = true) :
    uploadImageVideoFile pinata (.event type) image video document toastId =
      match dispatchAll (plannedUploads pinata image video document) with
      | (trace, .error _) => catchBlock (Effect.preventDefault :: trace) toastId 0
      | (trace, .ok ps) =>
        match (Promise.all ps).outcome with
        | .fulfilled results =>
          { trace := Effect.preventDefault :: trace
            completion := .returned
              (some (results.foldl (fun cids res => Cids.setProp cids res.type res.cid) []))
            completedAt := (Promise.all ps).settledAt }
        | .rejected _ =>
          catchBlock (Effect.preventDefault :: trace) toastId (Promise.all ps).settledAt := by
  unfold uploadImageVideoFile pushUpload plannedUploads
  simp only [JsVal.hasPreventDefault, hi]
  cases hv : video.truthy <;> cases hd : document.truthy
  · rcases h0 : pinata 0 image with e0 | p0 <;>
      simp [uploadCalls, dispatchAll, uploadEffect, h0]
  · rcases h0 : pinata 0 image with e0 | p0 <;>
    rcases h1 : pinata 1 document with e1 | p1 <;>
      simp [uploadCalls, dispatchAll, uploadEffect, h0, h1]
  · rcases h0 : pinata 0 image with e0 | p0 <;>
    rcases h1 : pinata 1 video with e1 | p1 <;>
      simp [uploadCalls, dispatchAll, uploadEffect, h0, h1]
  · rcases h0 : pinata 0 image with e0 | p0 <;>
    rcases h1 : pinata 1 video with e1 | p1 <;>
    rcases h2 : pinata 2 document with e2 | p2 <;>
      simp [uploadCalls, dispatchAll, uploadEffect, h0, h1, h2]

/-- The three endings of a call with an event and a truthy image: every upload
succeeds; or a call raises and dispatch stops there; or no call raises and one
of the awaited promises rejects. -/
theorem uploadImageVideoFile_cases (pinata : PinningClient) (type : String)
    (image video document toastId : JsVal) (hi : image.truthy = true) :
    ((∀ u ∈ plannedUploads pinata image video document, u.2.2.succeeds = true) ∧
      uploadImageVideoFile pinata (.event type) image video document toastId =
        { trace := Effect.preventDefault ::
            (plannedUploads pinata image video document).map uploadEffect
          completion := .returned (some
            ((fulfilledValues (awaitedOf (plannedUploads pinata image video document))).foldl
              (fun cids res => Cids.setProp cids res.type res.cid) []))
          completedAt := lastSettlement (awaitedOf (plannedUploads pinata image video document)) })
    ∨ (∃ pre u post error, plannedUploads pinata image video document = pre ++ u :: post ∧
        (∀ v ∈ pre, v.2.2.isThrow = false) ∧ u.2.2 = .threw error ∧
        uploadImageVideoFile pinata (.event type) image video document toastId =
          catchBlock (Effect.preventDefault :: (pre ++ [u]).map uploadEffect) toastId 0)
    ∨ ((∀ u ∈ plannedUploads pinata image video document, u.2.2.isThrow = false) ∧
        (∃ u ∈ plannedUploads pinata image video document, u.2.2.succeeds = false) ∧
        ∃ t r, earliestRejection (awaitedOf (plannedUploads pinata image video document))
            = some (t, r) ∧
          uploadImageVideoFile pinata (.event type) image video document toastId =
            catchBlock (Effect.preventDefault ::
              (plannedUploads pinata image video document).map uploadEffect) toastId t) := by
  rw [uploadImageVideoFile_of_truthy_image pinata type image video document toastId hi]
  by_cases hthrow : ∃ u ∈ plannedUploads pinata image video document, u.2.2.isThrow = true
  · right
    left
    obtain ⟨pre, u, post, error, hus, hpre, hu, hd⟩ := dispatchAll_of_throw _ hthrow
    exact ⟨pre, u, post, error, hus, hpre, hu, by rw [hd]⟩
  · have hno : ∀ u ∈ plannedUploads pinata image video document, u.2.2.isThrow = false := by
      intro u hu
      by_contra hc
      exact hthrow ⟨u, hu, by simpa using hc⟩
    rw [dispatchAll_of_no_throw _ hno]
    by_cases hall : ∀ u ∈ plannedUploads pinata image video document, u.2.2.succeeds = true
    · left
      refine ⟨hall, ?_⟩
      have hnone : earliestRejection (awaitedOf (plannedUploads pinata image video document))
          = none := by
        rw [earliestRejection_eq_none_iff]
        intro q hq
        obtain ⟨u, hu, p, hp, -, hf⟩ := mem_awaitedOf _ q hq
        have := hall u hu
        rw [hp, ClientAnswer.succeeds_promise] at this
        rw [hf]
        exact this
      simp [Promise.all, hnone]
    · right
      right
      have hsome : ∃ u ∈ plannedUploads pinata image video document, u.2.2.succeeds = false := by
        by_contra hc
        apply hall
        intro u hu
        by_contra hs
        exact hc ⟨u, hu, by simpa using hs⟩
      refine ⟨hno, hsome, ?_⟩
      obtain ⟨u, hu, hus⟩ := hsome
      cases hrej : earliestRejection (awaitedOf (plannedUploads pinata image video document)) with
      | none =>
        exfalso
        rcases hans : u.2.2 with error | p
        · have := hno u hu
          simp [hans, ClientAnswer.isThrow] at this
        · obtain ⟨q, hq, -, hf⟩ := awaitedOf_of_mem _ u hu p hans
          have hq2 := (earliestRejection_eq_none_iff _).1 hrej q hq
          rw [hans, ClientAnswer.succeeds_promise] at hus
          rw [hf, hus] at hq2
          exact absurd hq2 (by decide)
      | some tr =>
        obtain ⟨t, r⟩ := tr
        refine ⟨t, r, rfl, ?_⟩
        simp [Promise.all, hrej]

/-- The first planned upload is the image. -/
theorem plannedUploads_eq_cons (pinata : PinningClient) (image video document : JsVal) :
    ∃ rest, plannedUploads pinata image video document
      = ("image", image, pinata 0 image) :: rest := by
  unfold plannedUploads
  exact ⟨_, rfl⟩

/-- The payloads of the planned uploads. -/
theorem plannedUploads_payloads (pinata : PinningClient) (image video document : JsVal) :
    (plannedUploads pinata image video document).map (fun u => u.2.1)
      = [image] ++ (if video.truthy then [video] else [])
          ++ (if document.truthy then [document] else []) := by
  unfold plannedUploads
  cases video.truthy <;> cases document.truthy <;> simp

theorem answers_of_success {α : Type} (us : List (String × JsVal × ClientAnswer))
    (c : Completion α) (t : Nat) :
    answers ({ trace := Effect.preventDefault :: us.map uploadEffect, completion := c,
               completedAt := t } : Call α).trace = us.map (fun u => u.2.2) := by
  have h := answers_map_uploadEffect us []
  simpa [answers] using h

theorem answers_of_catchBlock (us : List (String × JsVal × ClientAnswer)) (toastId : JsVal)
    (t : Nat) :
    answers (catchBlock (Effect.preventDefault :: us.map uploadEffect) toastId t).trace
      = us.map (fun u => u.2.2) := by
  have h := answers_map_uploadEffect us
    [.consoleError "Upload failed:", .toastError "Failed to upload files to IPFS." toastId]
  simpa [answers, catchBlock] using h

theorem uploadCalls_of_success {α : Type} (us : List (String × JsVal × ClientAnswer))
    (c : Completion α) (t : Nat) :
    uploadCalls ({ trace := Effect.preventDefault :: us.map uploadEffect, completion := c,
                   completedAt := t } : Call α).trace = us.map (fun u => u.2.1) := by
  have h := uploadCalls_map_uploadEffect us []
  simpa [uploadCalls] using h

theorem uploadCalls_of_catchBlock (us : List (String × JsVal × ClientAnswer)) (toastId : JsVal)
    (t : Nat) :
    uploadCalls (catchBlock (Effect.preventDefault :: us.map uploadEffect) toastId t).trace
      = us.map (fun u => u.2.1) := by
  have h := uploadCalls_map_uploadEffect us
    [.consoleError "Upload failed:", .toastError "Failed to upload files to IPFS." toastId]
  simpa [uploadCalls, catchBlock] using h

theorem notifications_of_success {α : Type} (us : List (String × JsVal × ClientAnswer))
    (c : Completion α) (t : Nat) :
    notifications ({ trace := Effect.preventDefault :: us.map uploadEffect, completion := c,
                     completedAt := t } : Call α).trace = [] := by
  have h := notifications_map_uploadEffect us []
  simpa [notifications] using h

theorem notifications_of_catchBlock (us : List (String × JsVal × ClientAnswer))
    (toastId : JsVal) (t : Nat) :
    notifications (catchBlock (Effect.preventDefault :: us.map uploadEffect) toastId t).trace
      = [("Failed to upload files to IPFS.", toastId)] := by
  have h := notifications_map_uploadEffect us
    [.consoleError "Upload failed:", .toastError "Failed to upload files to IPFS." toastId]
  simpa [notifications, catchBlock] using h

/-- When every call recorded in the trace succeeded, every planned upload
succeeds: nothing was left out. -/
theorem planned_succeed_of_answers (pinata : PinningClient) (type : String)
    (image video document toastId : JsVal) (hi : image.truthy = true)
    (hok : ∀ a ∈ answers
        (uploadImageVideoFile pinata (.event type) image video document toastId).trace,
      a.succeeds = true) :
    ∀ u ∈ plannedUploads pinata image video document, u.2.2.succeeds = true := by
  rcases uploadImageVideoFile_cases pinata type image video document toastId hi with
    ⟨hall, -⟩ | ⟨pre, u, post, error, -, -, hu, hcall⟩ | ⟨-, ⟨u, hu, hus⟩, t, r, -, hcall⟩
  · exact hall
  · rw [hcall, answers_of_catchBlock] at hok
    have := hok u.2.2 (List.mem_map.2 ⟨u, by simp, rfl⟩)
    simp [hu, ClientAnswer.succeeds, ClientAnswer.response?] at this
  · rw [hcall, answers_of_catchBlock] at hok
    have := hok u.2.2 (List.mem_map.2 ⟨u, hu, rfl⟩)
    rw [hus] at this
    exact absurd this (by decide)

/-- The first payload handed to the client is the image. -/
theorem uploadCalls_head (pinata : PinningClient) (type : String)
    (image video document toastId : JsVal) (hi : image.truthy = true) :
    (uploadCalls (uploadImageVideoFile pinata (.event type) image video document
      toastId).trace).head? = some image := by
  obtain ⟨rest, hP⟩ := plannedUploads_eq_cons pinata image video document
  rcases uploadImageVideoFile_cases pinata type image video document toastId hi with
    ⟨-, hcall⟩ | ⟨pre, u, post, error, hus, -, -, hcall⟩ | ⟨-, -, t, r, -, hcall⟩
  · rw [hcall, uploadCalls_of_success, hP]
    rfl
  · rw [hcall, uploadCalls_of_catchBlock]
    rw [hP] at hus
    cases pre with
    | nil =>
      simp only [List.nil_append, List.cons.injEq] at hus
      rw [← hus.1]
      rfl
    | cons v pre =>
      simp only [List.cons_append, List.cons.injEq] at hus
      rw [← hus.1]
      rfl
  · rw [hcall, uploadCalls_of_catchBlock, hP]
    rfl

/-! ## Claims -/

/-- C1: for every event `e` and every falsy `image`, whatever `video`,
`document` and `toastId` are, the call returns `null`, makes no call to
`pinata.upload.file`, and emits exactly one notification, with the message
"Please upload an image." and the id `toastId`. -/
theorem uploadImageVideoFile_missing_image (pinata : PinningClient)
    (e image video document toastId : JsVal)
    (he : e.hasPreventDefault = true) (hi : image.truthy = false) :
    (uploadImageVideoFile pinata e image video document toastId).completion = .returned none ∧
    uploadCalls (uploadImageVideoFile pinata e image video document toastId).trace = [] ∧
    notifications (uploadImageVideoFile pinata e image video document toastId).trace
      = [("Please upload an image.", toastId)] := by
  simp [uploadImageVideoFile, he, hi, uploadCalls, notifications]

/-- Witness for C1: a submit event, `null` as image, token "t1". -/
theorem uploadImageVideoFile_missing_image_witness :
    (uploadImageVideoFile happyClient (.event "submit") .null .undefined .undefined
      (.str "t1")).completion = .returned none ∧
    uploadCalls (uploadImageVideoFile happyClient (.event "submit") .null .undefined .undefined
      (.str "t1")).trace = [] ∧
    notifications (uploadImageVideoFile happyClient (.event "submit") .null .undefined .undefined
      (.str "t1")).trace = [("Please upload an image.", .str "t1")] :=
  uploadImageVideoFile_missing_image happyClient (.event "submit") .null .undefined .undefined
    (.str "t1") (by decide) (by decide)

/-- C4: for every call shape (image missing, all uploads fulfil, some upload
rejects or raises) with an event `e`, `e.preventDefault` is invoked exactly
once, and it is the first effect of the call, so it precedes every call to the
pinning client and every notification. -/
theorem uploadImageVideoFile_preventDefault_once_first (pinata : PinningClient)
    (e image video document toastId : JsVal) (he : e.hasPreventDefault = true) :
    preventDefaultCount (uploadImageVideoFile pinata e image video document toastId).trace = 1 ∧
    ∃ rest, (uploadImageVideoFile pinata e image video document toastId).trace
        = Effect.preventDefault :: rest ∧
      Effect.preventDefault ∉ rest := by
  obtain ⟨type, rfl⟩ := (JsVal.hasPreventDefault_iff e).1 he
  cases hi : image.truthy
  · simp [uploadImageVideoFile, JsVal.hasPreventDefault, hi, preventDefaultCount]
  · rcases uploadImageVideoFile_cases pinata type image video document toastId hi with
      ⟨-, hcall⟩ | ⟨pre, u, post, error, -, -, -, hcall⟩ | ⟨-, -, t, r, -, hcall⟩
    · rw [hcall]
      have h := preventDefault_first (plannedUploads pinata image video document) []
        (by simp) rfl
      rw [List.append_nil] at h
      exact ⟨h.1, _, rfl, h.2⟩
    · rw [hcall]
      have h := preventDefault_first (pre ++ [u])
        [.consoleError "Upload failed:", .toastError "Failed to upload files to IPFS." toastId]
        (by simp) rfl
      exact ⟨h.1, _, rfl, h.2⟩
    · rw [hcall]
      have h := preventDefault_first (plannedUploads pinata image video document)
        [.consoleError "Upload failed:", .toastError "Failed to upload files to IPFS." toastId]
        (by simp) rfl
      exact ⟨h.1, _, rfl, h.2⟩

/-- Witness for C4: a submit event whose video upload rejects. -/
theorem uploadImageVideoFile_preventDefault_once_first_witness :
    preventDefaultCount (uploadImageVideoFile videoFailsClient (.event "submit")
      (.file "a.png" 10) (.file "v.mp4" 20) .undefined (.str "t1")).trace = 1 :=
  (uploadImageVideoFile_preventDefault_once_first videoFailsClient (.event "submit")
    (.file "a.png" 10) (.file "v.mp4" 20) .undefined (.str "t1") (by decide)).1

/-- C2: for an event `e` and a truthy `image`, if every upload issued to the
pinning client succeeds, the call returns a mapping whose keys are exactly
"image", then "video" iff `video` is truthy, then "document" iff `document` is
truthy, and each key maps to the cid with which the client answered the upload
of that payload. -/
theorem uploadImageVideoFile_success_mapping (pinata : PinningClient) (type : String)
    (image video document toastId : JsVal) (hi : image.truthy = true)
    (hok : ∀ a ∈ answers
        (uploadImageVideoFile pinata (.event type) image video document toastId).trace,
      a.succeeds = true) :
    ∃ cids : Cids,
      (uploadImageVideoFile pinata (.event type) image video document toastId).completion
        = .returned (some cids) ∧
      cids.keys = ["image"] ++ (if video.truthy then ["video"] else [])
          ++ (if document.truthy then ["document"] else []) ∧
      (∀ res, (pinata 0 image).response? = some res → cids.getProp "image" = some res.cid) ∧
      (video.truthy = true → ∀ res, (pinata 1 video).response? = some res →
        cids.getProp "video" = some res.cid) ∧
      (document.truthy = true →
        ∀ res, (pinata (if video.truthy then 2 else 1) document).response? = some res →
          cids.getProp "document" = some res.cid) := by
  have hall := planned_succeed_of_answers pinata type image video document toastId hi hok
  clear hok
  unfold plannedUploads at hall
  unfold uploadImageVideoFile pushUpload
  simp only [JsVal.hasPreventDefault, hi]
  cases hv : video.truthy <;> cases hd : document.truthy <;>
    simp [hv, hd, ClientAnswer.succeeds_iff] at hall
  · obtain ⟨p0, h0, r0, o0⟩ := hall
    simp [uploadCalls, Promise.all, earliestRejection, Promise.thenCall, readCid,
      fulfilledValues, h0, o0, Cids.setProp, Cids.getProp, Cids.keys, ClientAnswer.response?]
  · obtain ⟨⟨p0, h0, r0, o0⟩, ⟨p1, h1, r1, o1⟩⟩ := hall
    simp [uploadCalls, Promise.all, earliestRejection, Promise.thenCall, readCid,
      fulfilledValues, h0, o0, h1, o1, Cids.setProp, Cids.getProp, Cids.keys,
      ClientAnswer.response?]
  · obtain ⟨⟨p0, h0, r0, o0⟩, ⟨p1, h1, r1, o1⟩⟩ := hall
    simp [uploadCalls, Promise.all, earliestRejection, Promise.thenCall, readCid,
      fulfilledValues, h0, o0, h1, o1, Cids.setProp, Cids.getProp, Cids.keys,
      ClientAnswer.response?]
  · obtain ⟨⟨p0, h0, r0, o0⟩, ⟨p1, h1, r1, o1⟩, ⟨p2, h2, r2, o2⟩⟩ := hall
    simp [uploadCalls, Promise.all, earliestRejection, Promise.thenCall, readCid,
      fulfilledValues, h0, o0, h1, o1, h2, o2, Cids.setProp, Cids.getProp, Cids.keys,
      ClientAnswer.response?]

/-- Witness for C2: image, video and document, answered with `cidA`, `cidV`
and `cidD`. -/
theorem uploadImageVideoFile_success_mapping_witness :
    ∃ cids : Cids,
      (uploadImageVideoFile happyClient (.event "submit") (.file "a.png" 10) (.file "v.mp4" 20)
        (.file "d.pdf" 30) (.str "t1")).completion = .returned (some cids) ∧
      cids.keys = ["image", "video", "document"] ∧
      cids.getProp "image" = some "cidA" ∧
      cids.getProp "video" = some "cidV" ∧
      cids.getProp "document" = some "cidD" := by
  obtain ⟨cids, h, hkeys, himage, hvideo, hdocument⟩ :=
    uploadImageVideoFile_success_mapping happyClient "submit"
      (.file "a.png" 10) (.file "v.mp4" 20) (.file "d.pdf" 30) (.str "t1") (by decide) (by decide)
  exact ⟨cids, h, hkeys, himage { cid := "cidA" } rfl, hvideo rfl { cid := "cidV" } rfl,
    hdocument rfl { cid := "cidD" } rfl⟩

/-- C3: for an event `e` and a truthy `image`, if at least one of the uploads
issued to the pinning client fails, whichever it is and whatever the others
do, the call returns `null` and emits exactly one notification, with the
message "Failed to upload files to IPFS." and the id `toastId`. An upload fails
when the call raises synchronously, when its promise rejects, and also when its
promise fulfils without a response object. -/
theorem uploadImageVideoFile_any_failure (pinata : PinningClient) (type : String)
    (image video document toastId : JsVal) (hi : image.truthy = true)
    (hfail : ∃ a ∈ answers
        (uploadImageVideoFile pinata (.event type) image video document toastId).trace,
      a.succeeds = false) :
    (uploadImageVideoFile pinata (.event type) image video document toastId).completion
      = .returned none ∧
    notifications (uploadImageVideoFile pinata (.event type) image video document toastId).trace
      = [("Failed to upload files to IPFS.", toastId)] := by
  rcases uploadImageVideoFile_cases pinata type image video document toastId hi with
    ⟨hall, hcall⟩ | ⟨pre, u, post, error, -, -, -, hcall⟩ | ⟨-, -, t, r, -, hcall⟩
  · exfalso
    rw [hcall, answers_of_success] at hfail
    obtain ⟨a, ha, hf⟩ := hfail
    obtain ⟨u, hu, rfl⟩ := List.mem_map.1 ha
    rw [hall u hu] at hf
    exact absurd hf (by decide)
  · rw [hcall]
    exact ⟨rfl, notifications_of_catchBlock _ _ _⟩
  · rw [hcall]
    exact ⟨rfl, notifications_of_catchBlock _ _ _⟩

/-- Witness for C3, a synchronous exception: the image upload fulfils and the
call for the video raises. -/
theorem uploadImageVideoFile_any_failure_witness :
    (uploadImageVideoFile videoThrowsClient (.event "submit") (.file "a.png" 10)
      (.file "v.mp4" 20) .undefined (.str "t1")).completion = .returned none ∧
    notifications (uploadImageVideoFile videoThrowsClient (.event "submit") (.file "a.png" 10)
      (.file "v.mp4" 20) .undefined (.str "t1")).trace
      = [("Failed to upload files to IPFS.", .str "t1")] :=
  uploadImageVideoFile_any_failure videoThrowsClient "submit" (.file "a.png" 10)
    (.file "v.mp4" 20) .undefined (.str "t1") (by decide) (by decide)

/-- C6: whenever the call returns a mapping, it has emitted no notification. -/
theorem uploadImageVideoFile_success_silent (pinata : PinningClient)
    (e image video document toastId : JsVal) (cids : Cids)
    (h : (uploadImageVideoFile pinata e image video document toastId).completion
      = .returned (some cids)) :
    notifications (uploadImageVideoFile pinata e image video document toastId).trace = [] := by
  by_cases he : e.hasPreventDefault = true
  · obtain ⟨type, rfl⟩ := (JsVal.hasPreventDefault_iff e).1 he
    cases hi : image.truthy
    · simp [uploadImageVideoFile, JsVal.hasPreventDefault, hi] at h
    · rcases uploadImageVideoFile_cases pinata type image video document toastId hi with
        ⟨-, hcall⟩ | ⟨pre, u, post, error, -, -, -, hcall⟩ | ⟨-, -, t, r, -, hcall⟩
      · rw [hcall]
        exact notifications_of_success _ _ _
      · rw [hcall] at h
        simp [catchBlock] at h
      · rw [hcall] at h
        simp [catchBlock] at h
  · simp [uploadImageVideoFile, he] at h

/-- Witness for C6: an image alone, answered with `cidA`. -/
theorem uploadImageVideoFile_success_silent_witness :
    notifications (uploadImageVideoFile happyClient (.event "submit") (.file "a.png" 10)
      .undefined .undefined (.str "t1")).trace = [] :=
  uploadImageVideoFile_success_silent happyClient (.event "submit") (.file "a.png" 10)
    .undefined .undefined (.str "t1") [("image", "cidA")] (by decide)

/-- C5, as stated, fails: `e.preventDefault()` runs before the `try` block, so
with `undefined` as first argument the TypeError reaches the caller as a
rejection, and no notification is emitted. -/
theorem uploadImageVideoFile_rejects_without_event :
    (uploadImageVideoFile happyClient .undefined (.file "a.png" 10) .undefined .undefined
      (.str "t1")).completion = .threw "TypeError" ∧
    (uploadImageVideoFile happyClient .undefined (.file "a.png" 10) .undefined .undefined
      (.str "t1")).trace = [] := by
  decide

/-- C5, amended: when the first argument is an event, whatever the other
arguments are and whatever the pinning client does (raise synchronously,
reject, fulfil with or without a response object), the call never throws or
rejects: it returns `null`, or a mapping that holds at least the key "image". -/
theorem uploadImageVideoFile_never_throws_for_event (pinata : PinningClient)
    (e image video document toastId : JsVal) (he : e.hasPreventDefault = true) :
    (uploadImageVideoFile pinata e image video document toastId).completion = .returned none ∨
    ∃ cids : Cids, (cids.getProp "image").isSome = true ∧
      (uploadImageVideoFile pinata e image video document toastId).completion
        = .returned (some cids) := by
  obtain ⟨type, rfl⟩ := (JsVal.hasPreventDefault_iff e).1 he
  cases hi : image.truthy
  · left
    simp [uploadImageVideoFile, JsVal.hasPreventDefault, hi]
  · obtain ⟨rest, hP⟩ := plannedUploads_eq_cons pinata image video document
    rcases uploadImageVideoFile_cases pinata type image video document toastId hi with
      ⟨hall, hcall⟩ | ⟨pre, u, post, error, -, -, -, hcall⟩ | ⟨-, -, t, r, -, hcall⟩
    · right
      rw [hcall]
      refine ⟨_, ?_, rfl⟩
      rw [hP] at hall ⊢
      have h0 := hall _ (List.mem_cons_self _ _)
      obtain ⟨p0, res0, hp0, ho0⟩ := (ClientAnswer.succeeds_iff _).1 h0
      simp only at hp0
      simp only [awaitedOf, hp0, fulfilledValues, Promise.thenCall, ho0, readCid,
        List.foldl_cons]
      apply foldl_setProp_getProp_isSome
      simp [Cids.setProp, Cids.getProp]
    · left
      rw [hcall]
      rfl
    · left
      rw [hcall]
      rfl

/-- Witness for the amended C5: a submit event with a client whose every call
raises. -/
theorem uploadImageVideoFile_never_throws_for_event_witness :
    JsVal.hasPreventDefault (.event "submit") = true ∧
    ((uploadImageVideoFile throwingClient (.event "submit") (.file "a.png" 10) .undefined
        .undefined (.str "t1")).completion = .returned none ∨
      ∃ cids : Cids, (cids.getProp "image").isSome = true ∧
        (uploadImageVideoFile throwingClient (.event "submit") (.file "a.png" 10) .undefined
          .undefined (.str "t1")).completion = .returned (some cids)) :=
  ⟨by decide, uploadImageVideoFile_never_throws_for_event throwingClient (.event "submit")
    (.file "a.png" 10) .undefined .undefined (.str "t1") (by decide)⟩

/-- C7, as stated, fails: the upload calls are inside the `try` block, so when
the call for the image raises synchronously, control jumps to the catch block
and the truthy video and document are never submitted. -/
theorem uploadImageVideoFile_throw_stops_dispatch :
    JsVal.truthy (.file "a.png" 10) = true ∧ JsVal.truthy (.file "v.mp4" 20) = true ∧
    JsVal.truthy (.file "d.pdf" 30) = true ∧
    uploadCalls (uploadImageVideoFile throwingClient (.event "submit") (.file "a.png" 10)
      (.file "v.mp4" 20) (.file "d.pdf" 30) (.str "t1")).trace = [.file "a.png" 10] := by
  decide

/-- C7, amended: for an event `e` and a truthy `image`, the payloads submitted
to the pinning client are `image`, then `video` iff it is truthy, then
`document` iff it is truthy, in that order, as long as no call to the client
raises synchronously; in every case they are a non-empty initial segment of
that sequence, and only the last call issued can have raised, so dispatch stops
at the first call that raises. An absent optional asset is never submitted, and
it is not an error: whichever optional assets are absent, when every issued
upload succeeds the call returns a mapping and emits no notification. -/
theorem uploadImageVideoFile_submission_order (pinata : PinningClient) (type : String)
    (image video document toastId : JsVal) (hi : image.truthy = true) :
    ((∀ a ∈ answers
          (uploadImageVideoFile pinata (.event type) image video document toastId).trace,
        a.isThrow = false) →
      uploadCalls (uploadImageVideoFile pinata (.event type) image video document toastId).trace
        = [image] ++ (if video.truthy then [video] else [])
            ++ (if document.truthy then [document] else [])) ∧
    (uploadCalls (uploadImageVideoFile pinata (.event type) image video document toastId).trace
        ≠ [] ∧
      ∃ rest,
        uploadCalls (uploadImageVideoFile pinata (.event type) image video document toastId).trace
            ++ rest
          = [image] ++ (if video.truthy then [video] else [])
              ++ (if document.truthy then [document] else [])) ∧
    (∀ a ∈ (answers
          (uploadImageVideoFile pinata (.event type) image video document toastId).trace).dropLast,
        a.isThrow = false) ∧
    ((∀ a ∈ answers
          (uploadImageVideoFile pinata (.event type) image video document toastId).trace,
        a.succeeds = true) →
      notifications (uploadImageVideoFile pinata (.event type) image video document toastId).trace
        = [] ∧
      ∃ cids, (uploadImageVideoFile pinata (.event type) image video document toastId).completion
        = .returned (some cids)) := by
  have hhead := uploadCalls_head pinata type image video document toastId hi
  have hne : uploadCalls
      (uploadImageVideoFile pinata (.event type) image video document toastId).trace ≠ [] := by
    intro hnil
    rw [hnil] at hhead
    simp at hhead
  have hpay := plannedUploads_payloads pinata image video document
  refine ⟨?_, ⟨hne, ?_⟩, ?_, ?_⟩
  · intro hno
    rcases uploadImageVideoFile_cases pinata type image video document toastId hi with
      ⟨-, hcall⟩ | ⟨pre, u, post, error, -, -, hu, hcall⟩ | ⟨-, -, t, r, -, hcall⟩
    · rw [hcall, uploadCalls_of_success, hpay]
    · exfalso
      rw [hcall, answers_of_catchBlock] at hno
      have := hno u.2.2 (List.mem_map.2 ⟨u, by simp, rfl⟩)
      simp [hu, ClientAnswer.isThrow] at this
    · rw [hcall, uploadCalls_of_catchBlock, hpay]
  · rcases uploadImageVideoFile_cases pinata type image video document toastId hi with
      ⟨-, hcall⟩ | ⟨pre, u, post, error, hus, -, -, hcall⟩ | ⟨-, -, t, r, -, hcall⟩
    · exact ⟨[], by rw [hcall, uploadCalls_of_success, hpay, List.append_nil]⟩
    · refine ⟨post.map (fun u => u.2.1), ?_⟩
      rw [hcall, uploadCalls_of_catchBlock, ← hpay, hus]
      simp
    · exact ⟨[], by rw [hcall, uploadCalls_of_catchBlock, hpay, List.append_nil]⟩
  · rcases uploadImageVideoFile_cases pinata type image video document toastId hi with
      ⟨hall, hcall⟩ | ⟨pre, u, post, error, -, hpre, -, hcall⟩ | ⟨hno, -, t, r, -, hcall⟩
    · rw [hcall, answers_of_success]
      intro a ha
      obtain ⟨u, hu, rfl⟩ := List.mem_map.1 (List.mem_of_mem_dropLast ha)
      exact ClientAnswer.not_isThrow_of_succeeds _ (hall u hu)
    · rw [hcall, answers_of_catchBlock]
      intro a ha
      rw [List.map_append, List.map_singleton, List.dropLast_concat] at ha
      obtain ⟨v, hv, rfl⟩ := List.mem_map.1 ha
      exact hpre v hv
    · rw [hcall, answers_of_catchBlock]
      intro a ha
      obtain ⟨u, hu, rfl⟩ := List.mem_map.1 (List.mem_of_mem_dropLast ha)
      exact hno u hu
  · intro hok
    have hall := planned_succeed_of_answers pinata type image video document toastId hi hok
    rcases uploadImageVideoFile_cases pinata type image video document toastId hi with
      ⟨-, hcall⟩ | ⟨pre, u, post, error, hus, -, hu, hcall⟩ | ⟨-, ⟨u, hu, hus⟩, t, r, -, hcall⟩
    · rw [hcall]
      exact ⟨notifications_of_success _ _ _, _, rfl⟩
    · exfalso
      have := hall u (by rw [hus]; simp)
      simp [hu, ClientAnswer.succeeds, ClientAnswer.response?] at this
    · exfalso
      have := hall u hu
      rw [hus] at this
      exact absurd this (by decide)

/-- Witness for the amended C7: an image and a document, no video, through a
client that fulfils every upload. -/
theorem uploadImageVideoFile_submission_order_witness :
    uploadCalls (uploadImageVideoFile happyClient (.event "submit") (.file "a.png" 10)
        .undefined (.file "d.pdf" 30) (.str "t1")).trace
      = [.file "a.png" 10, .file "d.pdf" 30] ∧
    notifications (uploadImageVideoFile happyClient (.event "submit") (.file "a.png" 10)
        .undefined (.file "d.pdf" 30) (.str "t1")).trace = [] :=
  have h := uploadImageVideoFile_submission_order happyClient "submit" (.file "a.png" 10)
    .undefined (.file "d.pdf" 30) (.str "t1") (by decide)
  ⟨h.1 (by decide), (h.2.2.2 (by decide)).1⟩

/-- C8, as stated, fails: a zero-byte file is an object, hence truthy, and it
is submitted to the pinning client. -/
theorem uploadImageVideoFile_submits_empty_file :
    JsVal.nonEmptyPayload (.file "empty.png" 0) = false ∧
    uploadCalls (uploadImageVideoFile happyClient (.event "submit") (.file "empty.png" 0)
      .undefined .undefined (.str "t1")).trace = [.file "empty.png" 0] := by
  decide

/-- C8, amended: a call to the pinning client is issued exactly when the first
argument is an event and `image` is truthy; a file object is truthy whatever
its size, so a file of any size, zero included, is submitted first. -/
theorem uploadImageVideoFile_uploads_iff_truthy_image (pinata : PinningClient)
    (e image video document toastId : JsVal) :
    (uploadCalls (uploadImageVideoFile pinata e image video document toastId).trace ≠ [] ↔
      e.hasPreventDefault = true ∧ image.truthy = true) ∧
    ∀ (type name : String) (size : Nat),
      (uploadCalls (uploadImageVideoFile pinata (.event type) (.file name size) video document
        toastId).trace).head? = some (.file name size) := by
  constructor
  · cases he : e.hasPreventDefault
    · simp [uploadImageVideoFile, he, uploadCalls]
    · cases hi : image.truthy
      · simp [uploadImageVideoFile, he, hi, uploadCalls]
      · obtain ⟨type, rfl⟩ := (JsVal.hasPreventDefault_iff e).1 he
        have h := uploadCalls_head pinata type image video document toastId hi
        simp only [ne_eq, and_self, iff_true]
        intro hnil
        rw [hnil] at h
        simp at h
  · intro type name size
    exact uploadCalls_head pinata type (.file name size) video document toastId rfl

/-- C9, as stated, fails: with the image upload fulfilling at time 5 and the
video upload rejecting at time 1, two submissions are issued and the call
returns `null` at time 1, before the image upload has settled. -/
theorem uploadImageVideoFile_returns_before_all_settled :
    (submissions (uploadImageVideoFile slowImageClient (.event "submit") (.file "a.png" 10)
      (.file "v.mp4" 20) .undefined (.str "t1")).trace).length = 2 ∧
    (uploadImageVideoFile slowImageClient (.event "submit") (.file "a.png" 10)
      (.file "v.mp4" 20) .undefined (.str "t1")).completion = .returned none ∧
    ¬ ∀ p ∈ submissions (uploadImageVideoFile slowImageClient (.event "submit")
        (.file "a.png" 10) (.file "v.mp4" 20) .undefined (.str "t1")).trace,
      p.settledAt ≤ (uploadImageVideoFile slowImageClient (.event "submit") (.file "a.png" 10)
        (.file "v.mp4" 20) .undefined (.str "t1")).completedAt := by
  decide

/-- C9, amended: for an event and a truthy image, a mapping is returned only
after every issued submission has settled, each with a response object, so the
call does not return on the first completion; `null` is returned at the first
failure, whether or not the other submissions have settled by then: at once,
at time 0, when a call to the client raises synchronously, and otherwise at the
earliest moment at which an issued submission rejects or fulfils without a
response object. -/
theorem uploadImageVideoFile_result_time (pinata : PinningClient) (type : String)
    (image video document toastId : JsVal) (hi : image.truthy = true) :
    ((∃ cids, (uploadImageVideoFile pinata (.event type) image video document toastId).completion
        = .returned (some cids)) →
      ∀ p ∈ submissions
          (uploadImageVideoFile pinata (.event type) image video document toastId).trace,
        p.delivers = true ∧
        p.settledAt
          ≤ (uploadImageVideoFile pinata (.event type) image video document toastId).completedAt) ∧
    ((uploadImageVideoFile pinata (.event type) image video document toastId).completion
        = .returned none →
      ((∃ a ∈ answers
            (uploadImageVideoFile pinata (.event type) image video document toastId).trace,
          a.isThrow = true) ∧
        (uploadImageVideoFile pinata (.event type) image video document toastId).completedAt = 0)
      ∨
      ((∀ a ∈ answers
            (uploadImageVideoFile pinata (.event type) image video document toastId).trace,
          a.isThrow = false) ∧
        (∃ p ∈ submissions
            (uploadImageVideoFile pinata (.event type) image video document toastId).trace,
          p.delivers = false ∧
          p.settledAt
            = (uploadImageVideoFile pinata (.event type) image video document
                toastId).completedAt) ∧
        ∀ q ∈ submissions
            (uploadImageVideoFile pinata (.event type) image video document toastId).trace,
          q.delivers = false →
          (uploadImageVideoFile pinata (.event type) image video document toastId).completedAt
            ≤ q.settledAt)) := by
  unfold submissions
  rcases uploadImageVideoFile_cases pinata type image video document toastId hi with
    ⟨hall, hcall⟩ | ⟨pre, u, post, error, -, -, hu, hcall⟩ | ⟨hno, -, t, r, hrej, hcall⟩
  · rw [hcall, answers_of_success]
    refine ⟨?_, ?_⟩
    · intro _ p hp
      obtain ⟨u, hu, hup⟩ := List.mem_map.1 ((mem_promisesOf _ p).1 hp)
      have hs := hall u hu
      rw [hup, ClientAnswer.succeeds_promise] at hs
      obtain ⟨q, hq, hqt, -⟩ := awaitedOf_of_mem _ u hu p hup
      refine ⟨hs, ?_⟩
      have := le_lastSettlement _ q hq
      rw [hqt] at this
      exact this
    · intro h
      simp at h
  · rw [hcall, answers_of_catchBlock]
    refine ⟨?_, ?_⟩
    · rintro ⟨cids, h⟩
      simp [catchBlock] at h
    · intro _
      left
      refine ⟨⟨u.2.2, List.mem_map.2 ⟨u, by simp, rfl⟩, ?_⟩, rfl⟩
      rw [hu]
      rfl
  · rw [hcall, answers_of_catchBlock]
    obtain ⟨⟨q, hq, hqr, hqt⟩, hmin⟩ := earliestRejection_some _ t r hrej
    refine ⟨?_, ?_⟩
    · rintro ⟨cids, h⟩
      simp [catchBlock] at h
    · intro _
      right
      refine ⟨?_, ?_, ?_⟩
      · intro a ha
        obtain ⟨u, hu, rfl⟩ := List.mem_map.1 ha
        exact hno u hu
      · obtain ⟨u, hu, p, hp, hpt, hpf⟩ := mem_awaitedOf _ q hq
        refine ⟨p, (mem_promisesOf _ p).2 (List.mem_map.2 ⟨u, hu, hp⟩), ?_, ?_⟩
        · rw [← hpf]
          exact (Promise.not_isFulfilled_iff q).2 ⟨r, hqr⟩
        · rw [← hpt]
          exact hqt
      · intro p hp hpf
        obtain ⟨u, hu, hup⟩ := List.mem_map.1 ((mem_promisesOf _ p).1 hp)
        obtain ⟨q2, hq2, hq2t, hq2f⟩ := awaitedOf_of_mem _ u hu p hup
        have := hmin q2 hq2 (by rw [hq2f]; exact hpf)
        rw [hq2t] at this
        exact this

/-- Witness for the amended C9: the image upload fulfils at time 5, the
video upload rejects at time 1, and the call returns `null` at time 1. -/
theorem uploadImageVideoFile_result_time_witness :
    ((∃ a ∈ answers (uploadImageVideoFile slowImageClient (.event "submit")
          (.file "a.png" 10) (.file "v.mp4" 20) .undefined (.str "t1")).trace,
        a.isThrow = true) ∧
      (uploadImageVideoFile slowImageClient (.event "submit") (.file "a.png" 10)
        (.file "v.mp4" 20) .undefined (.str "t1")).completedAt = 0)
    ∨
    ((∀ a ∈ answers (uploadImageVideoFile slowImageClient (.event "submit")
          (.file "a.png" 10) (.file "v.mp4" 20) .undefined (.str "t1")).trace,
        a.isThrow = false) ∧
      (∃ p ∈ submissions (uploadImageVideoFile slowImageClient (.event "submit")
          (.file "a.png" 10) (.file "v.mp4" 20) .undefined (.str "t1")).trace,
        p.delivers = false ∧
        p.settledAt = (uploadImageVideoFile slowImageClient (.event "submit")
          (.file "a.png" 10) (.file "v.mp4" 20) .undefined (.str "t1")).completedAt) ∧
      ∀ q ∈ submissions (uploadImageVideoFile slowImageClient (.event "submit")
          (.file "a.png" 10) (.file "v.mp4" 20) .undefined (.str "t1")).trace,
        q.delivers = false →
        (uploadImageVideoFile slowImageClient (.event "submit") (.file "a.png" 10)
          (.file "v.mp4" 20) .undefined (.str "t1")).completedAt ≤ q.settledAt) :=
  (uploadImageVideoFile_result_time slowImageClient "submit" (.file "a.png" 10)
    (.file "v.mp4" 20) .undefined (.str "t1") (by decide)).2 (by decide)

/-- C10: whatever its four arguments, `uploadProperty` resolves to `true`: it
never returns `false`, never throws, emits no notification, and its result is
the same for any other arguments. -/
theorem uploadProperty_always_true (listingType formData cids toastId : JsVal) :
    ((usePropertyUpload ()).uploadProperty listingType formData cids toastId).completion
      = .returned true ∧
    notifications
      ((usePropertyUpload ()).uploadProperty listingType formData cids toastId).trace = [] ∧
    ∀ listingType2 formData2 cids2 toastId2 : JsVal,
      ((usePropertyUpload ()).uploadProperty listingType2 formData2 cids2 toastId2).completion
        = ((usePropertyUpload ()).uploadProperty listingType formData cids toastId).completion := by
  refine ⟨rfl, ?_, fun _ _ _ _ => rfl⟩
  simp [usePropertyUpload, usePropertyUpload.uploadProperty, notifications]

end PropaChain
